import Mathlib

/-!
Shallow embedding of the geometric/optical core of the Takenoha/RayTracing
repository (Rust, `glam::Vec3` / `f32`), together with proofs settling the
frozen claims about its specification.

Modelling conventions:
* `f32` scalars are embedded as exact rationals `ℚ`.  All guards, branches and
  arithmetic of the source are translated literally; the only idealisation is
  that arithmetic is exact.
* `f32::sqrt` is embedded as `ratSqrt`, the exact nonnegative square root when
  the radicand is a perfect rational square and `0` otherwise.  Every theorem
  below either does not depend on the value of `ratSqrt` beyond its
  nonnegativity, or is evaluated at inputs whose radicands are perfect squares
  (where `ratSqrt` agrees exactly with the real square root).
* `f32::INFINITY` (the initial `t_closest` of the ray-march loop, also a
  possible `t_max` argument) is embedded as the top element of
  `Qinf := WithTop ℚ`.
* Division by zero in `ℚ` yields `0`, not IEEE `±inf`; theorems touching a
  division whose divisor can vanish carry an explicit nonvanishing hypothesis.
-/

set_option allowUnsafeReducibility true

attribute [local semireducible] Rat.mul Rat.add Rat.sub Rat.inv

/-- Largest `j ≤ k` with `j * j ≤ n` (`0` if none), by structural recursion so
that concrete instances reduce inside the kernel. -/
def sqrtAux (n : ℕ) : ℕ → ℕ
  | 0 => 0
  | k + 1 => if (k + 1) * (k + 1) ≤ n then k + 1 else sqrtAux n k

/-- Integer square root (kernel-reducible replacement for `Nat.sqrt`). -/
def natSqrt (n : ℕ) : ℕ := sqrtAux n n

/-- `glam::Vec3` with exact rational components. -/
structure Vec3 where
  x : ℚ
  y : ℚ
  z : ℚ
deriving DecidableEq, Repr

instance : Add Vec3 := ⟨fun a b => ⟨a.x + b.x, a.y + b.y, a.z + b.z⟩⟩

instance : Sub Vec3 := ⟨fun a b => ⟨a.x - b.x, a.y - b.y, a.z - b.z⟩⟩

instance : Neg Vec3 := ⟨fun a => ⟨-a.x, -a.y, -a.z⟩⟩

instance : SMul ℚ Vec3 := ⟨fun q v => ⟨q * v.x, q * v.y, q * v.z⟩⟩

/-- `Vec3::dot`. -/
def dotQ (a b : Vec3) : ℚ := a.x * b.x + a.y * b.y + a.z * b.z

/-- `Vec3::length_squared`. -/
def lsq (v : Vec3) : ℚ := dotQ v v

/-- Embedding of `f32::sqrt`: the exact nonnegative square root when the
radicand is a perfect rational square, `0` otherwise (see module comment). -/
def ratSqrt (q : ℚ) : ℚ :=
  if 0 ≤ q then
    if natSqrt q.num.toNat * natSqrt q.num.toNat = q.num.toNat ∧
        natSqrt q.den * natSqrt q.den = q.den then
      (natSqrt q.num.toNat : ℚ) / (natSqrt q.den : ℚ)
    else 0
  else 0

/-- `Vec3::normalize` (`self * self.length().recip()` in glam). -/
def normalizeQ (v : Vec3) : Vec3 := (1 / ratSqrt (lsq v)) • v

/-- `Material` (scene.rs / primitives/mod.rs). -/
inductive Material where
  | Mirror : Material
  | Glass (ior : ℚ) : Material
  | HalfMirror (reflectance : ℚ) : Material
deriving DecidableEq, Repr

/-- `HitRecord` (scene.rs). -/
structure HitRecord where
  t : ℚ
  point : Vec3
  normal : Vec3
  front_face : Bool
  material : Material
deriving DecidableEq, Repr

/-- `Ray` (scene.rs). -/
structure Ray where
  origin : Vec3
  direction : Vec3
  current_ior : ℚ
deriving DecidableEq, Repr

/-- `f32` values that may be `INFINITY` (used for `t_max` / `t_closest`). -/
abbrev Qinf := WithTop ℚ

/-- `fn reflect` (scene.rs:9, main.rs:81). -/
def reflect (incident normal : Vec3) : Vec3 :=
  incident - (2 * dotQ incident normal) • normal

/-- `fn refract` (scene.rs:14, main.rs:86). -/
def refract (incident normal : Vec3) (ior_ratio : ℚ) : Option Vec3 :=
  let cos_theta := min (dotQ (-incident) normal) 1
  let sin_theta_squared := 1 - cos_theta * cos_theta
  if ior_ratio * ior_ratio * sin_theta_squared > 1 then
    none
  else
    let perp := ior_ratio • (incident + cos_theta • normal)
    let parallel := (-(ratSqrt |1 - lsq perp|)) • normal
    some (normalizeQ (perp + parallel))

/-- `Sphere` (main.rs:104). -/
structure Sphere where
  center : Vec3
  radius : ℚ
  material : Material
deriving DecidableEq, Repr

/-- Hit construction shared by the two root blocks of `Sphere::intersect_all`
(main.rs:123-146): the in-range guard and HitRecord construction are
syntactically identical for both roots in the source. -/
def sphereHitAt (s : Sphere) (r : Ray) (t_min : ℚ) (t_max : Qinf) (t : ℚ) :
    List HitRecord :=
  if t > t_min ∧ (t : Qinf) < t_max then
    let point := r.origin + t • r.direction
    let outward_normal := (1 / s.radius) • (point - s.center)
    let front_face := decide (dotQ r.direction outward_normal < 0)
    let normal := if front_face then outward_normal else -outward_normal
    [⟨t, point, normal, front_face, s.material⟩]
  else []

/-- `Sphere::intersect_all` (main.rs:110). -/
def sphereIntersectAll (s : Sphere) (r : Ray) (t_min : ℚ) (t_max : Qinf) :
    Option (List HitRecord) :=
  let oc := r.origin - s.center
  let a := lsq r.direction
  let half_b := dotQ oc r.direction
  let c := lsq oc - s.radius * s.radius
  let discriminant := half_b * half_b - a * c
  if discriminant < 0 then none else
  let sqrtd := ratSqrt discriminant
  let t1 := (-half_b - sqrtd) / a
  let hits1 := sphereHitAt s r t_min t_max t1
  let hits2 :=
    if discriminant > 1 / 1000000 then
      sphereHitAt s r t_min t_max ((-half_b + sqrtd) / a)
    else []
  let hits := hits1 ++ hits2
  if hits.isEmpty then none else some hits

/-- `Plane` (src/primitives/plane.rs:5). -/
structure Plane where
  point : Vec3
  normal : Vec3
  material : Material
deriving DecidableEq, Repr

/-- `Plane::intersect_all` (src/primitives/plane.rs:12). -/
def planeIntersectAll (p : Plane) (r : Ray) (t_min : ℚ) (t_max : Qinf) :
    Option (List HitRecord) :=
  let denom := dotQ p.normal r.direction
  if |denom| < 1 / 1000000 then none else
  let t := dotQ (p.point - r.origin) p.normal / denom
  if t < t_min ∨ t_max < (t : Qinf) then none else
  let point := r.origin + t • r.direction
  let front_face := decide (dotQ r.direction p.normal < 0)
  let normal := if front_face then p.normal else -p.normal
  some [⟨t, point, normal, front_face, p.material⟩]

/-- `InfiniteCylinder` (src/primitives/infinite_cylinder.rs:3). -/
structure InfiniteCylinder where
  axis_point : Vec3
  axis_dir : Vec3
  radius : ℚ
  material : Material
deriving DecidableEq, Repr

/-- Hit construction shared by the two roots of
`InfiniteCylinder::intersect_all` (the body of its `for &t in &[t1, t2]`). -/
def cylinderHitAt (cy : InfiniteCylinder) (r : Ray) (t_min : ℚ) (t_max : Qinf)
    (t : ℚ) : List HitRecord :=
  if t > t_min ∧ (t : Qinf) < t_max then
    let point := r.origin + t • r.direction
    let p_minus_a := point - cy.axis_point
    let projection := dotQ p_minus_a cy.axis_dir
    let point_on_axis := cy.axis_point + projection • cy.axis_dir
    let outward_normal := normalizeQ (point - point_on_axis)
    let front_face := decide (dotQ r.direction outward_normal < 0)
    let normal := if front_face then outward_normal else -outward_normal
    [⟨t, point, normal, front_face, cy.material⟩]
  else []

/-- `InfiniteCylinder::intersect_all` (src/primitives/infinite_cylinder.rs:11). -/
def cylinderIntersectAll (cy : InfiniteCylinder) (r : Ray) (t_min : ℚ)
    (t_max : Qinf) : Option (List HitRecord) :=
  let oc := r.origin - cy.axis_point
  let d_dot_v := dotQ r.direction cy.axis_dir
  let d_perp := r.direction - d_dot_v • cy.axis_dir
  let oc_dot_v := dotQ oc cy.axis_dir
  let oc_perp := oc - oc_dot_v • cy.axis_dir
  let a := lsq d_perp
  let b := 2 * dotQ oc_perp d_perp
  let c := lsq oc_perp - cy.radius * cy.radius
  if |a| < 1 / 1000000 then none else
  let discriminant := b * b - 4 * a * c
  if discriminant < 0 then none else
  let sqrtd := ratSqrt discriminant
  let t1 := (-b - sqrtd) / (2 * a)
  let t2 := (-b + sqrtd) / (2 * a)
  let hits := cylinderHitAt cy r t_min t_max t1 ++ cylinderHitAt cy r t_min t_max t2
  if hits.isEmpty then none else some hits

/-- `InfiniteCone` (crates/raytracing_core/src/primitives/infinite_cone.rs:5). -/
structure InfiniteCone where
  vertex : Vec3
  axis_dir : Vec3
  cos_angle_sq : ℚ
  material : Material
deriving DecidableEq, Repr

/-- Hit construction shared by the two roots of `InfiniteCone::intersect_all`
(the body of its `for &t in &[t1, t2]`). -/
def coneHitAt (cn : InfiniteCone) (r : Ray) (t_min : ℚ) (t_max : Qinf)
    (t : ℚ) : List HitRecord :=
  if t > t_min ∧ (t : Qinf) < t_max then
    let point := r.origin + t • r.direction
    let pv := point - cn.vertex
    let m := dotQ pv cn.axis_dir
    let outward_normal := normalizeQ (m • cn.axis_dir - cn.cos_angle_sq • pv)
    let front_face := decide (dotQ r.direction outward_normal < 0)
    let normal := if front_face then outward_normal else -outward_normal
    [⟨t, point, normal, front_face, cn.material⟩]
  else []

/-- `InfiniteCone::intersect_all` (crates/raytracing_core/src/primitives/infinite_cone.rs:26). -/
def coneIntersectAll (cn : InfiniteCone) (r : Ray) (t_min : ℚ) (t_max : Qinf) :
    Option (List HitRecord) :=
  let co := r.origin - cn.vertex
  let d_dot_v := dotQ r.direction cn.axis_dir
  let co_dot_v := dotQ co cn.axis_dir
  let a := d_dot_v * d_dot_v - cn.cos_angle_sq
  let b := 2 * (d_dot_v * co_dot_v - dotQ r.direction co * cn.cos_angle_sq)
  let c := co_dot_v * co_dot_v - lsq co * cn.cos_angle_sq
  let discriminant := b * b - 4 * a * c
  if discriminant < 0 then none else
  let sqrtd := ratSqrt discriminant
  let t1 := (-b - sqrtd) / (2 * a)
  let t2 := (-b + sqrtd) / (2 * a)
  let hits := coneHitAt cn r t_min t_max t1 ++ coneHitAt cn r t_min t_max t2
  if hits.isEmpty then none else some hits

/-- `AxisAlignedBox` (crates/raytracing_core/src/primitives/axis_aligned_box.rs:5). -/
structure AxisAlignedBox where
  min : Vec3
  max : Vec3
  material : Material
deriving DecidableEq, Repr

/-- `AxisAlignedBox::calculate_normal` (axis_aligned_box.rs:80). -/
def calculateNormal (bx : AxisAlignedBox) (point : Vec3) : Vec3 :=
  if |point.x - bx.min.x| < 1 / 10000 then ⟨-1, 0, 0⟩
  else if |point.x - bx.max.x| < 1 / 10000 then ⟨1, 0, 0⟩
  else if |point.y - bx.min.y| < 1 / 10000 then ⟨0, -1, 0⟩
  else if |point.y - bx.max.y| < 1 / 10000 then ⟨0, 1, 0⟩
  else if |point.z - bx.min.z| < 1 / 10000 then ⟨0, 0, -1⟩
  else if |point.z - bx.max.z| < 1 / 10000 then ⟨0, 0, 1⟩
  else ⟨0, 0, 0⟩

/-- One axis of the slab test of `AxisAlignedBox::intersect_all`
(axis_aligned_box.rs:17): `(t0, t1)` after the swap.  `1 / d` with `d = 0`
yields `0` in `ℚ` where `f32` yields `±inf`; theorems about rays with a zero
direction component are stated with an explicit nonvanishing hypothesis. -/
def slabAxis (mn mx o d : ℚ) : ℚ × ℚ :=
  let inv_d := 1 / d
  let t0 := (mn - o) * inv_d
  let t1 := (mx - o) * inv_d
  if inv_d < 0 then (t1, t0) else (t0, t1)

/-- `f32::min` of a possibly-infinite running bound and a finite slab bound
(`min INFINITY x = x`). -/
def qmin (q : Qinf) (x : ℚ) : ℚ := min (q.untop' x) x

/-- `AxisAlignedBox::intersect_all` (axis_aligned_box.rs:12), with the
three-iteration `for i in 0..3` loop unrolled. -/
def boxIntersectAll (bx : AxisAlignedBox) (r : Ray) (t_min : ℚ) (t_max : Qinf) :
    Option (List HitRecord) :=
  let px := slabAxis bx.min.x bx.max.x r.origin.x r.direction.x
  let tmin1 := max t_min px.1
  let tmax1 := qmin t_max px.2
  if tmax1 ≤ tmin1 then none else
  let py := slabAxis bx.min.y bx.max.y r.origin.y r.direction.y
  let tmin2 := max tmin1 py.1
  let tmax2 := min tmax1 py.2
  if tmax2 ≤ tmin2 then none else
  let pz := slabAxis bx.min.z bx.max.z r.origin.z r.direction.z
  let tmin3 := max tmin2 pz.1
  let tmax3 := min tmax2 pz.2
  if tmax3 ≤ tmin3 then none else
  let point1 := r.origin + tmin3 • r.direction
  let normal1 := calculateNormal bx point1
  let point2 := r.origin + tmax3 • r.direction
  let normal2 := -(calculateNormal bx point2)
  some [⟨tmin3, point1, normal1, decide (dotQ r.direction normal1 < 0), bx.material⟩,
        ⟨tmax3, point2, normal2, decide (dotQ r.direction normal2 < 0), bx.material⟩]

/-- A hittable object, seen through the `Hittable` trait: its
`intersect_all(ray, t_min, t_max)` method. -/
abbrev Obj := Ray → ℚ → Qinf → Option (List HitRecord)

/-- `CsgOperation` (primitives/mod.rs). -/
inductive CsgOperation where
  | Union : CsgOperation
  | Intersection : CsgOperation
  | Difference : CsgOperation
deriving DecidableEq, Repr

/-- The `match self.operation` expressions of `CSGObject::intersect_all`
(csg.rs:29, csg.rs:43). -/
def csgInside (op : CsgOperation) (in_left in_right : Bool) : Bool :=
  match op with
  | .Union => in_left || in_right
  | .Intersection => in_left && in_right
  | .Difference => in_left && !in_right

/-- `hits_left.iter().any(|h| (h.t - hit.t).abs() < 1e-6)` (csg.rs:26). -/
def isOnLeftB (hits_left : List HitRecord) (hit : HitRecord) : Bool :=
  hits_left.any (fun h => |h.t - hit.t| < 1 / 1000000)

/-- Stable insertion used to model `all_hits.sort_by(|a, b|
a.t.partial_cmp(&b.t).unwrap())` (csg.rs:16): Rust's `sort_by` is a stable
sort, and a stable sort by `t` is extensionally unique. -/
def insertByT (h : HitRecord) : List HitRecord → List HitRecord
  | [] => [h]
  | a :: rest => if a.t < h.t then a :: insertByT h rest else h :: a :: rest

/-- Stable sort by `t` (see `insertByT`). -/
def sortByT (l : List HitRecord) : List HitRecord := l.foldr insertByT []

/-- The per-hit emission of `CSGObject::intersect_all` (csg.rs:52): for
`Difference`, a hit from the right child is emitted with flipped normal and
`front_face`. -/
def emitHit (op : CsgOperation) (hit_is_on_left : Bool) (hit : HitRecord) :
    HitRecord :=
  if op = .Difference ∧ hit_is_on_left = false then
    { hit with normal := -hit.normal, front_face := !hit.front_face }
  else hit

/-- The `for hit in &all_hits` walk of `CSGObject::intersect_all`
(csg.rs:24-61), with the mutable `in_left` / `in_right` state passed
explicitly. -/
def csgWalk (op : CsgOperation) (hits_left : List HitRecord) :
    List HitRecord → Bool → Bool → List HitRecord
  | [], _, _ => []
  | hit :: rest, in_left, in_right =>
    let hit_is_on_left := isOnLeftB hits_left hit
    let was_inside := csgInside op in_left in_right
    let in_left2 := if hit_is_on_left then !in_left else in_left
    let in_right2 := if hit_is_on_left then in_right else !in_right
    let is_inside := csgInside op in_left2 in_right2
    let rest2 := csgWalk op hits_left rest in_left2 in_right2
    if was_inside ≠ is_inside then emitHit op hit_is_on_left hit :: rest2 else rest2

/-- `CSGObject::intersect_all` (csg.rs:8). -/
def csgIntersectAll (left right : Obj) (operation : CsgOperation) : Obj :=
  fun r t_min t_max =>
    let hits_left := (left r t_min t_max).getD []
    let hits_right := (right r t_min t_max).getD []
    let all_hits := sortByT (hits_left ++ hits_right)
    let result_hits := csgWalk operation hits_left all_hits false false
    if result_hits.isEmpty then none else some result_hits

/-- One step of the CSG walk, annotated with the `in_left` / `in_right` state
immediately before (`wasL`, `wasR`) and after (`nowL`, `nowR`) the hit is
processed. -/
structure CsgStep where
  hit : HitRecord
  wasL : Bool
  wasR : Bool
  nowL : Bool
  nowR : Bool
deriving DecidableEq, Repr

/-- The state trace of the `for hit in &all_hits` walk of
`CSGObject::intersect_all`. -/
def csgAnnotate (hits_left : List HitRecord) :
    List HitRecord → Bool → Bool → List CsgStep
  | [], _, _ => []
  | hit :: rest, inL, inR =>
    let onL := isOnLeftB hits_left hit
    let inL2 := if onL then !inL else inL
    let inR2 := if onL then inR else !inR
    ⟨hit, inL, inR, inL2, inR2⟩ :: csgAnnotate hits_left rest inL2 inR2

/-- `glam::Mat4` with exact rational entries, row-major (`mIJ` is row `I`,
column `J` of the matrix acting on column vectors). -/
structure Mat4 where
  m00 : ℚ
  m01 : ℚ
  m02 : ℚ
  m03 : ℚ
  m10 : ℚ
  m11 : ℚ
  m12 : ℚ
  m13 : ℚ
  m20 : ℚ
  m21 : ℚ
  m22 : ℚ
  m23 : ℚ
  m30 : ℚ
  m31 : ℚ
  m32 : ℚ
  m33 : ℚ
deriving DecidableEq, Repr

/-- `Mat4::transpose`. -/
def mat4Transpose (m : Mat4) : Mat4 :=
  ⟨m.m00, m.m10, m.m20, m.m30,
   m.m01, m.m11, m.m21, m.m31,
   m.m02, m.m12, m.m22, m.m32,
   m.m03, m.m13, m.m23, m.m33⟩

/-- Matrix product (used only to state that a stored inverse really is an
inverse). -/
def mat4Mul (a b : Mat4) : Mat4 :=
  ⟨a.m00 * b.m00 + a.m01 * b.m10 + a.m02 * b.m20 + a.m03 * b.m30,
   a.m00 * b.m01 + a.m01 * b.m11 + a.m02 * b.m21 + a.m03 * b.m31,
   a.m00 * b.m02 + a.m01 * b.m12 + a.m02 * b.m22 + a.m03 * b.m32,
   a.m00 * b.m03 + a.m01 * b.m13 + a.m02 * b.m23 + a.m03 * b.m33,
   a.m10 * b.m00 + a.m11 * b.m10 + a.m12 * b.m20 + a.m13 * b.m30,
   a.m10 * b.m01 + a.m11 * b.m11 + a.m12 * b.m21 + a.m13 * b.m31,
   a.m10 * b.m02 + a.m11 * b.m12 + a.m12 * b.m22 + a.m13 * b.m32,
   a.m10 * b.m03 + a.m11 * b.m13 + a.m12 * b.m23 + a.m13 * b.m33,
   a.m20 * b.m00 + a.m21 * b.m10 + a.m22 * b.m20 + a.m23 * b.m30,
   a.m20 * b.m01 + a.m21 * b.m11 + a.m22 * b.m21 + a.m23 * b.m31,
   a.m20 * b.m02 + a.m21 * b.m12 + a.m22 * b.m22 + a.m23 * b.m32,
   a.m20 * b.m03 + a.m21 * b.m13 + a.m22 * b.m23 + a.m23 * b.m33,
   a.m30 * b.m00 + a.m31 * b.m10 + a.m32 * b.m20 + a.m33 * b.m30,
   a.m30 * b.m01 + a.m31 * b.m11 + a.m32 * b.m21 + a.m33 * b.m31,
   a.m30 * b.m02 + a.m31 * b.m12 + a.m32 * b.m22 + a.m33 * b.m32,
   a.m30 * b.m03 + a.m31 * b.m13 + a.m32 * b.m23 + a.m33 * b.m33⟩

/-- The identity matrix. -/
def mat4Id : Mat4 := ⟨1,0,0,0, 0,1,0,0, 0,0,1,0, 0,0,0,1⟩

/-- `Mat4::transform_point3` (affine action on a point, `w = 1`). -/
def transformPoint3 (m : Mat4) (v : Vec3) : Vec3 :=
  ⟨m.m00 * v.x + m.m01 * v.y + m.m02 * v.z + m.m03,
   m.m10 * v.x + m.m11 * v.y + m.m12 * v.z + m.m13,
   m.m20 * v.x + m.m21 * v.y + m.m22 * v.z + m.m23⟩

/-- `Mat4::transform_vector3` (linear action on a vector, `w = 0`). -/
def transformVector3 (m : Mat4) (v : Vec3) : Vec3 :=
  ⟨m.m00 * v.x + m.m01 * v.y + m.m02 * v.z,
   m.m10 * v.x + m.m11 * v.y + m.m12 * v.z,
   m.m20 * v.x + m.m21 * v.y + m.m22 * v.z⟩

/-- `Transform` (src/primitives/transform.rs:4): a wrapped child hittable, the
local-to-world matrix and the cached world-to-local matrix. -/
structure Transform where
  object : Obj
  transform : Mat4
  inverse_transform : Mat4

/-- `Transform::intersect_all` (src/primitives/transform.rs:20). -/
def transformIntersectAll (tr : Transform) : Obj :=
  fun r t_min t_max =>
    let local_ray : Ray :=
      ⟨transformPoint3 tr.inverse_transform r.origin,
       transformVector3 tr.inverse_transform r.direction,
       r.current_ior⟩
    match tr.object local_ray t_min t_max with
    | some local_hits =>
      some (local_hits.map (fun hit =>
        { hit with
            point := transformPoint3 tr.transform hit.point,
            normal := normalizeQ
              (transformVector3 (mat4Transpose tr.inverse_transform) hit.normal) }))
    | none => none

/-- `SimulationSettingsConfig` (the two fields the loop reads). -/
structure SimulationSettingsConfig where
  max_bounces : ℕ
  infinity_distance : ℚ

/-- `object.intersect_all(&ray, 0.001, t_closest)` followed by `hits.first()`
(scene.rs:50-51). -/
def firstHit (o : Obj) (r : Ray) (t_min : ℚ) (t_max : Qinf) : Option HitRecord :=
  (o r t_min t_max).bind List.head?

/-- The body of the `for object in &self.objects` selection loop
(scene.rs:49-58), acting on the state `(closest_hit_record, t_closest)`. -/
def selectStep (r : Ray) (st : Option HitRecord × Qinf) (o : Obj) :
    Option HitRecord × Qinf :=
  match firstHit o r (1 / 1000) st.2 with
  | some first_hit =>
    if (first_hit.t : Qinf) < st.2 then (some first_hit, (first_hit.t : Qinf))
    else st
  | none => st

/-- The full selection loop of one bounce (scene.rs:46-58), starting from
`closest_hit_record = None`, `t_closest = f32::INFINITY`. -/
def selectHit (objects : List Obj) (r : Ray) : Option HitRecord :=
  (objects.foldl (selectStep r) (none, ⊤)).1

/-- The material dispatch and origin push-off of one bounce (scene.rs:59-93).
`u` is the value the uniform draw `rand::thread_rng().gen::<f32>()` would
return; it is consumed only in the `HalfMirror` arm. -/
def nextRay (ray : Ray) (hit : HitRecord) (u : ℚ) : Ray :=
  let r2 : Ray :=
    match hit.material with
    | .Mirror => { ray with direction := reflect ray.direction hit.normal }
    | .Glass material_ior =>
      let n1 := ray.current_ior
      let n2 := if hit.front_face then material_ior else 1
      let ior_ratio := n1 / n2
      match refract ray.direction hit.normal ior_ratio with
      | some refracted_dir =>
        { ray with direction := refracted_dir, current_ior := n2 }
      | none => { ray with direction := reflect ray.direction hit.normal }
    | .HalfMirror reflectance =>
      if u < reflectance then
        { ray with direction := reflect ray.direction hit.normal }
      else ray
  { r2 with origin := hit.point + (1 / 1000 : ℚ) • r2.direction }

/-- The `for _ in 0..max_bounces` loop of `Scene::simulate_rays`
(scene.rs:45-98): the polyline points pushed after the initial origin.  The
random stream `u` is shifted by one at every bounce. -/
def traceAux (objects : List Obj) (infinity_distance : ℚ) :
    ℕ → (ℕ → ℚ) → Ray → List Vec3
  | 0, _, _ => []
  | n + 1, u, ray =>
    match selectHit objects ray with
    | some hit =>
      hit.point ::
        traceAux objects infinity_distance n (fun i => u (i + 1))
          (nextRay ray hit (u 0))
    | none => [ray.origin + infinity_distance • ray.direction]

/-- The per-ray body of `Scene::simulate_rays` (scene.rs:38-99): the polyline
starts with the ray origin. -/
def simulateRay (objects : List Obj) (setting : SimulationSettingsConfig)
    (u : ℕ → ℚ) (ray : Ray) : List Vec3 :=
  ray.origin :: traceAux objects setting.infinity_distance setting.max_bounces u ray

/-- `Scene::simulate_rays` (scene.rs:35): one polyline per initial ray, in
input order; `u i` is the random stream consumed while tracing ray `i`. -/
def simulateRays (objects : List Obj) (rays : List Ray)
    (setting : SimulationSettingsConfig) (u : ℕ → ℕ → ℚ) : List (List Vec3) :=
  rays.mapIdx (fun i ray => simulateRay objects setting (u i) ray)

/-- Clip a first-hit result to the hits strictly below a bound `b` (what the
selection loop can ever use of it). -/
def clipFirst (b : Qinf) : Option HitRecord → Option HitRecord
  | some h => if (h.t : Qinf) < b then some h else none
  | none => none

/-- Window-coherence of a hittable: narrowing `t_max` does not change which
hit strictly below the bound is reported first.  Any hittable whose lists are
the sorted crossings inside the window has this property. -/
def Coherent (o : Obj) : Prop :=
  ∀ r t_min b, clipFirst b (firstHit o r t_min b) = clipFirst b (firstHit o r t_min ⊤)

/-- Reference selection: fold the objects' unbounded first hits, keeping the
strictly smallest `t` and, on ties, the earliest object in the list. -/
def minStep (r : Ray) (st : Option HitRecord × Qinf) (o : Obj) :
    Option HitRecord × Qinf :=
  match firstHit o r (1 / 1000) ⊤ with
  | some h => if (h.t : Qinf) < st.2 then (some h, (h.t : Qinf)) else st
  | none => st

/-- The smallest-`t` unbounded first hit across objects (earliest object wins
ties). -/
def minFirstHit (objects : List Obj) (r : Ray) : Option HitRecord :=
  (objects.foldl (minStep r) (none, ⊤)).1

/-- The discriminant of `Sphere::intersect_all` (main.rs:115). -/
def sphereDisc (s : Sphere) (r : Ray) : ℚ :=
  dotQ (r.origin - s.center) r.direction *
      dotQ (r.origin - s.center) r.direction -
    lsq r.direction * (lsq (r.origin - s.center) - s.radius * s.radius)

/-- The smaller quadratic root of `Sphere::intersect_all` (main.rs:122). -/
def sphereT1 (s : Sphere) (r : Ray) : ℚ :=
  (-dotQ (r.origin - s.center) r.direction - ratSqrt (sphereDisc s r)) /
    lsq r.direction

/-- The larger quadratic root of `Sphere::intersect_all` (main.rs:135). -/
def sphereT2 (s : Sphere) (r : Ray) : ℚ :=
  (-dotQ (r.origin - s.center) r.direction + ratSqrt (sphereDisc s r)) /
    lsq r.direction

/-- Concrete hits used to instantiate the CSG theorems. -/
def hitA : HitRecord := ⟨1, ⟨0,0,0⟩, ⟨0,1,0⟩, true, .Mirror⟩

/-- A hit well separated (by more than 1e-6) from `hitA`. -/
def hitB : HitRecord := ⟨2, ⟨0,0,0⟩, ⟨0,1,0⟩, true, .Mirror⟩

/-- A hit within 1e-6 of `hitA`. -/
def hitC : HitRecord := ⟨1 + 1/2000000, ⟨0,0,0⟩, ⟨0,1,0⟩, true, .Mirror⟩

/-- Concrete window-respecting single-hit hittable (hit at `t = 5`). -/
def obj5 : Obj := fun _ t_min t_max =>
  if t_min < 5 ∧ ((5:ℚ) : Qinf) < t_max then
    some [⟨5, ⟨0,0,0⟩, ⟨0,1,0⟩, true, .Mirror⟩]
  else none

/-- Concrete child hittable used to instantiate the Transform theorem. -/
def idChild : Obj := fun _ _ _ => some [⟨5, ⟨1,2,3⟩, ⟨0,1,0⟩, true, .Mirror⟩]

theorem ratSqrt_nonneg (q : ℚ) : 0 ≤ ratSqrt q := by
  unfold ratSqrt
  split
  · split
    · positivity
    · exact le_refl 0
  · exact le_refl 0

@[simp] theorem Vec3_add_def (a b : Vec3) :
    a + b = ⟨a.x + b.x, a.y + b.y, a.z + b.z⟩ := rfl

@[simp] theorem Vec3_sub_def (a b : Vec3) :
    a - b = ⟨a.x - b.x, a.y - b.y, a.z - b.z⟩ := rfl

@[simp] theorem Vec3_neg_def (a : Vec3) : -a = ⟨-a.x, -a.y, -a.z⟩ := rfl

@[simp] theorem Vec3_smul_def (q : ℚ) (a : Vec3) :
    q • a = ⟨q * a.x, q * a.y, q * a.z⟩ := rfl

theorem dotQ_neg_left (a b : Vec3) : dotQ (-a) b = -dotQ a b := by
  rcases a with ⟨ax, ay, az⟩; rcases b with ⟨b1, b2, b3⟩
  simp [dotQ]; ring

theorem dotQ_neg_right (a b : Vec3) : dotQ a (-b) = -dotQ a b := by
  rcases a with ⟨ax, ay, az⟩; rcases b with ⟨b1, b2, b3⟩
  simp [dotQ]; ring

theorem lsq_nonneg (v : Vec3) : 0 ≤ lsq v := by
  rcases v with ⟨vx, vy, vz⟩
  simp only [lsq, dotQ]
  nlinarith [mul_self_nonneg vx, mul_self_nonneg vy, mul_self_nonneg vz]

theorem dotQ_sq_le_lsq_mul_lsq (a b : Vec3) :
    dotQ a b * dotQ a b ≤ lsq a * lsq b := by
  rcases a with ⟨ax, ay, az⟩; rcases b with ⟨b1, b2, b3⟩
  simp only [lsq, dotQ]
  nlinarith [sq_nonneg (ax * b2 - ay * b1), sq_nonneg (ax * b3 - az * b1),
    sq_nonneg (ay * b3 - az * b2)]

/-- C1: at a Glass hit, the loop sets `n1 = current_ior`,
`n2 = front_face ? ior : 1.0`, calls `refract(D, N, n1 / n2)`; on success the
direction becomes the refracted vector and `current_ior` becomes `n2`; on
total internal reflection the direction becomes `reflect(D, N)` and
`current_ior` is unchanged (the origin is then pushed off along the new
direction in both cases). -/
theorem C1_glass_bounce (ray : Ray) (hit : HitRecord) (u : ℚ) (material_ior : ℚ)
    (hm : hit.material = .Glass material_ior) :
    (∀ d, refract ray.direction hit.normal
        (ray.current_ior / (if hit.front_face then material_ior else 1)) = some d →
      nextRay ray hit u =
        ⟨hit.point + (1 / 1000 : ℚ) • d, d,
         if hit.front_face then material_ior else 1⟩) ∧
    (refract ray.direction hit.normal
        (ray.current_ior / (if hit.front_face then material_ior else 1)) = none →
      nextRay ray hit u =
        ⟨hit.point + (1 / 1000 : ℚ) • reflect ray.direction hit.normal,
         reflect ray.direction hit.normal, ray.current_ior⟩) := by
  constructor
  · intro d hd
    simp only [nextRay, hm, hd]
  · intro hd
    simp only [nextRay, hm, hd]

theorem C1_glass_bounce_witness :
    (HitRecord.mk 5 ⟨5,0,0⟩ ⟨-1,0,0⟩ true (.Glass (3/2))).material = .Glass (3/2) ∧
    refract (Vec3.mk 1 0 0) ⟨-1,0,0⟩
      ((1 : ℚ) / (if true then (3/2 : ℚ) else 1)) = some ⟨1,0,0⟩ ∧
    nextRay ⟨⟨0,0,0⟩, ⟨1,0,0⟩, 1⟩ ⟨5, ⟨5,0,0⟩, ⟨-1,0,0⟩, true, .Glass (3/2)⟩ 0 =
      ⟨(⟨5,0,0⟩ : Vec3) + (1/1000 : ℚ) • (⟨1,0,0⟩ : Vec3), ⟨1,0,0⟩,
       if (true : Bool) then (3/2 : ℚ) else 1⟩ :=
  ⟨rfl, by decide,
    (C1_glass_bounce ⟨⟨0,0,0⟩, ⟨1,0,0⟩, 1⟩ ⟨5, ⟨5,0,0⟩, ⟨-1,0,0⟩, true, .Glass (3/2)⟩
      0 (3/2) rfl).1 ⟨1,0,0⟩ (by decide)⟩

theorem csgWalk_eq_filterMap (op : CsgOperation) (hl : List HitRecord) :
    ∀ (hits : List HitRecord) (inL inR : Bool),
    csgWalk op hl hits inL inR =
      (csgAnnotate hl hits inL inR).filterMap (fun s =>
        if csgInside op s.wasL s.wasR ≠ csgInside op s.nowL s.nowR then
          some (emitHit op (isOnLeftB hl s.hit) s.hit)
        else none) := by
  intro hits
  induction hits with
  | nil => intro inL inR; rfl
  | cons hit rest ih =>
    intro inL inR
    simp only [csgWalk, csgAnnotate, List.filterMap_cons]
    by_cases hc :
        csgInside op inL inR ≠
          csgInside op (if isOnLeftB hl hit then !inL else inL)
            (if isOnLeftB hl hit then inR else !inR)
    · simp only [if_pos hc, ih]
    · simp only [if_neg hc, ih]

theorem csgAnnotate_toggle (hl : List HitRecord) :
    ∀ (hits : List HitRecord) (inL inR : Bool) (s : CsgStep),
    s ∈ csgAnnotate hl hits inL inR →
      (s.nowL, s.nowR) =
        if isOnLeftB hl s.hit then (!s.wasL, s.wasR) else (s.wasL, !s.wasR) := by
  intro hits
  induction hits with
  | nil => intro inL inR s hs; simp [csgAnnotate] at hs
  | cons hit rest ih =>
    intro inL inR s hs
    simp only [csgAnnotate, List.mem_cons] at hs
    rcases hs with h1 | h2
    · subst h1
      by_cases honL : isOnLeftB hl hit <;> simp [honL]
    · exact ih _ _ s h2

/-- C2: the CSG node merges the two children's hit lists sorted by `t` and
walks them with `in_left`, `in_right` both initially false; a crossing is
emitted exactly when toggling the boolean of the side the code assigns it to
changes `op(in_left, in_right)`, where Union is `or`, Intersection is `and`
and Difference is `in_left and not in_right`. -/
theorem C2_csg_emission_rule (left right : Obj) (operation : CsgOperation)
    (r : Ray) (t_min : ℚ) (t_max : Qinf) (hits_left hits : List HitRecord)
    (inL inR : Bool) :
    csgIntersectAll left right operation r t_min t_max =
      (if (csgWalk operation ((left r t_min t_max).getD [])
            (sortByT (((left r t_min t_max).getD []) ++
              ((right r t_min t_max).getD []))) false false).isEmpty then none
       else some (csgWalk operation ((left r t_min t_max).getD [])
            (sortByT (((left r t_min t_max).getD []) ++
              ((right r t_min t_max).getD []))) false false)) ∧
    csgWalk operation hits_left hits inL inR =
      (csgAnnotate hits_left hits inL inR).filterMap (fun s =>
        if csgInside operation s.wasL s.wasR ≠ csgInside operation s.nowL s.nowR
        then some (emitHit operation (isOnLeftB hits_left s.hit) s.hit)
        else none) ∧
    (∀ s ∈ csgAnnotate hits_left hits inL inR,
      (s.nowL, s.nowR) =
        if isOnLeftB hits_left s.hit then (!s.wasL, s.wasR)
        else (s.wasL, !s.wasR)) ∧
    (∀ a b : Bool, csgInside .Union a b = (a || b) ∧
      csgInside .Intersection a b = (a && b) ∧
      csgInside .Difference a b = (a && !b)) :=
  ⟨rfl, csgWalk_eq_filterMap operation hits_left hits inL inR,
    csgAnnotate_toggle hits_left hits inL inR,
    fun _ _ => ⟨rfl, rfl, rfl⟩⟩

theorem C2_csg_emission_rule_witness :
    ((⟨hitB, true, false, true, true⟩ : CsgStep).nowL,
     (⟨hitB, true, false, true, true⟩ : CsgStep).nowR) =
      if isOnLeftB [hitA] (⟨hitB, true, false, true, true⟩ : CsgStep).hit then
        (!(⟨hitB, true, false, true, true⟩ : CsgStep).wasL,
         (⟨hitB, true, false, true, true⟩ : CsgStep).wasR)
      else
        ((⟨hitB, true, false, true, true⟩ : CsgStep).wasL,
         !(⟨hitB, true, false, true, true⟩ : CsgStep).wasR) :=
  (C2_csg_emission_rule (fun _ _ _ => none) (fun _ _ _ => none) .Union
      ⟨⟨0,0,0⟩, ⟨1,0,0⟩, 1⟩ (1/1000) ⊤ [hitA] [hitA, hitB] false
      false).2.2.1 ⟨hitB, true, false, true, true⟩ (by decide)

/-- C9: a merged hit is classified as belonging to the left child exactly when
some left-child hit has a `t` within 1e-6 of it; consequently any merged hit
(in particular a right-child hit) lying within 1e-6 of a left-child `t`
toggles `in_left` instead of `in_right` during the walk. -/
theorem C9_left_classification (hits_left : List HitRecord) (hit : HitRecord)
    (hits : List HitRecord) (inL inR : Bool) :
    (isOnLeftB hits_left hit = true ↔
      ∃ h2 ∈ hits_left, |h2.t - hit.t| < 1/1000000) ∧
    (∀ s ∈ csgAnnotate hits_left hits inL inR,
      (∃ h2 ∈ hits_left, |h2.t - s.hit.t| < 1/1000000) →
        s.nowL = !s.wasL ∧ s.nowR = s.wasR) ∧
    (∀ s ∈ csgAnnotate hits_left hits inL inR,
      (∀ h2 ∈ hits_left, ¬(|h2.t - s.hit.t| < 1/1000000)) →
        s.nowL = s.wasL ∧ s.nowR = !s.wasR) := by
  have hiff : ∀ h0 : HitRecord, isOnLeftB hits_left h0 = true ↔
      ∃ h2 ∈ hits_left, |h2.t - h0.t| < 1/1000000 := by
    intro h0
    simp [isOnLeftB, List.any_eq_true]
  refine ⟨hiff hit, ?_, ?_⟩
  · intro s hs hex
    have ht := csgAnnotate_toggle hits_left hits inL inR s hs
    rw [if_pos ((hiff s.hit).mpr hex)] at ht
    exact ⟨congrArg Prod.fst ht, congrArg Prod.snd ht⟩
  · intro s hs hall
    have ht := csgAnnotate_toggle hits_left hits inL inR s hs
    have hnot : ¬ isOnLeftB hits_left s.hit = true := by
      intro hcl
      rcases (hiff s.hit).mp hcl with ⟨h2, hmem, hlt⟩
      exact hall h2 hmem hlt
    rw [if_neg hnot] at ht
    exact ⟨congrArg Prod.fst ht, congrArg Prod.snd ht⟩

theorem C9_left_classification_witness :
    ((⟨hitC, false, false, true, false⟩ : CsgStep).nowL =
      !(⟨hitC, false, false, true, false⟩ : CsgStep).wasL) ∧
    ((⟨hitC, false, false, true, false⟩ : CsgStep).nowR =
      (⟨hitC, false, false, true, false⟩ : CsgStep).wasR) :=
  (C9_left_classification [hitA] hitA [hitC] false false).2.1
    ⟨hitC, false, false, true, false⟩ (by decide)
    ⟨hitA, by decide, by decide⟩

theorem vec3_add_neg_smul (v w : Vec3) (s : ℚ) : v + (-s) • w = v - s • w := by
  rcases v with ⟨vx, vy, vz⟩; rcases w with ⟨wx, wy, wz⟩
  simp only [Vec3_add_def, Vec3_sub_def, Vec3_smul_def, Vec3.mk.injEq]
  and_intros <;> ring

theorem lsq_eta_perp (I N : Vec3) (η cc : ℚ) (hI : lsq I = 1) (hN : lsq N = 1)
    (hcc : cc = -dotQ I N) : lsq (η • (I + cc • N)) = η * η * (1 - cc * cc) := by
  subst hcc
  rcases I with ⟨ix, iy, iz⟩; rcases N with ⟨nx, ny, nz⟩
  simp only [lsq, dotQ, Vec3_add_def, Vec3_smul_def] at *
  linear_combination (η * η) * hI +
    (η * η * (ix * nx + iy * ny + iz * nz) * (ix * nx + iy * ny + iz * nz)) * hN

/-- C5: for unit vectors `I` and `N` with `I·N ≤ 0`, `refract(I, N, η)` is
`None` iff `η²(1−c²) > 1` with `c = min(1, −I·N)`, and otherwise equals the
renormalization of `η(I + cN) − sqrt(1 − η²(1−c²))·N`. -/
theorem C5_refract_snell (I N : Vec3) (η : ℚ) (hI : lsq I = 1) (hN : lsq N = 1)
    (hd : dotQ I N ≤ 0) :
    refract I N η =
      if η * η * (1 - min 1 (-dotQ I N) * min 1 (-dotQ I N)) > 1 then none
      else some (normalizeQ
        (η • (I + (min 1 (-dotQ I N)) • N) -
          ratSqrt (1 - η * η * (1 - min 1 (-dotQ I N) * min 1 (-dotQ I N))) • N)) := by
  have hdot2 : dotQ I N * dotQ I N ≤ 1 := by
    have h := dotQ_sq_le_lsq_mul_lsq I N
    rw [hI, hN] at h
    simpa using h
  have hle1 : -dotQ I N ≤ 1 := by nlinarith [hdot2]
  have hmin : min (dotQ (-I) N) 1 = min 1 (-dotQ I N) := by
    rw [dotQ_neg_left, min_comm]
  have hc : min 1 (-dotQ I N) = -dotQ I N := min_eq_right hle1
  have hperp := lsq_eta_perp I N η (-dotQ I N) hI hN rfl
  simp only [refract]
  rw [hmin, hc]
  by_cases hTIR : η * η * (1 - -dotQ I N * -dotQ I N) > 1
  · rw [if_pos hTIR, if_pos hTIR]
  · rw [if_neg hTIR, if_neg hTIR]
    have habs : |1 - lsq (η • (I + -dotQ I N • N))| =
        1 - η * η * (1 - -dotQ I N * -dotQ I N) := by
      rw [hperp]
      exact abs_of_nonneg (by linarith [not_lt.mp hTIR])
    rw [habs, vec3_add_neg_smul]

theorem C5_refract_snell_witness :
    lsq (Vec3.mk (3/5) (-4/5) 0) = 1 ∧ lsq (Vec3.mk 0 1 0) = 1 ∧
    dotQ (Vec3.mk (3/5) (-4/5) 0) (Vec3.mk 0 1 0) ≤ 0 ∧
    refract (Vec3.mk (3/5) (-4/5) 0) (Vec3.mk 0 1 0) (1/2) =
      (if (1/2 : ℚ) * (1/2) *
          (1 - min 1 (-dotQ (Vec3.mk (3/5) (-4/5) 0) (Vec3.mk 0 1 0)) *
            min 1 (-dotQ (Vec3.mk (3/5) (-4/5) 0) (Vec3.mk 0 1 0))) > 1 then none
       else some (normalizeQ
        ((1/2 : ℚ) • (Vec3.mk (3/5) (-4/5) 0 +
            (min 1 (-dotQ (Vec3.mk (3/5) (-4/5) 0) (Vec3.mk 0 1 0))) • Vec3.mk 0 1 0) -
          ratSqrt (1 - (1/2 : ℚ) * (1/2) *
            (1 - min 1 (-dotQ (Vec3.mk (3/5) (-4/5) 0) (Vec3.mk 0 1 0)) *
              min 1 (-dotQ (Vec3.mk (3/5) (-4/5) 0) (Vec3.mk 0 1 0)))) •
            Vec3.mk 0 1 0))) :=
  ⟨by decide, by decide, by decide,
    C5_refract_snell (Vec3.mk (3/5) (-4/5) 0) (Vec3.mk 0 1 0) (1/2)
      (by decide) (by decide) (by decide)⟩

theorem traceAux_length_le (objects : List Obj) (d : ℚ) :
    ∀ (n : ℕ) (u : ℕ → ℚ) (ray : Ray),
    (traceAux objects d n u ray).length ≤ n + 1 := by
  intro n
  induction n with
  | zero => intro u ray; simp [traceAux]
  | succ k ih =>
    intro u ray
    simp only [traceAux]
    cases h : selectHit objects ray with
    | some hit =>
      simp only [List.length_cons]
      have hrec := ih (fun i => u (i + 1)) (nextRay ray hit (u 0))
      omega
    | none => simp

/-- C6: each traced path begins with the ray's origin; a bounce that finds a
hit appends the hit point and continues with the updated ray; an iteration
with no hit appends `origin + direction * infinity_distance` and terminates;
an expired bounce budget terminates without appending a far-field point; hence
a path has at most `max_bounces + 2` points. -/
theorem C6_path_structure (objects : List Obj)
    (setting : SimulationSettingsConfig) (u : ℕ → ℚ) (ray : Ray) :
    simulateRay objects setting u ray =
      ray.origin ::
        traceAux objects setting.infinity_distance setting.max_bounces u ray ∧
    (simulateRay objects setting u ray).length ≤ setting.max_bounces + 2 ∧
    (∀ (u2 : ℕ → ℚ) (r2 : Ray),
      traceAux objects setting.infinity_distance 0 u2 r2 = []) ∧
    (∀ (n : ℕ) (u2 : ℕ → ℚ) (r2 : Ray) (hit : HitRecord),
      selectHit objects r2 = some hit →
      traceAux objects setting.infinity_distance (n + 1) u2 r2 =
        hit.point ::
          traceAux objects setting.infinity_distance n (fun i => u2 (i + 1))
            (nextRay r2 hit (u2 0))) ∧
    (∀ (n : ℕ) (u2 : ℕ → ℚ) (r2 : Ray),
      selectHit objects r2 = none →
      traceAux objects setting.infinity_distance (n + 1) u2 r2 =
        [r2.origin + setting.infinity_distance • r2.direction]) := by
  refine ⟨rfl, ?_, fun _ _ => rfl, ?_, ?_⟩
  · have hlen := traceAux_length_le objects setting.infinity_distance
      setting.max_bounces u ray
    simp only [simulateRay, List.length_cons]
    omega
  · intro n u2 r2 hit h
    simp only [traceAux, h]
  · intro n u2 r2 h
    simp only [traceAux, h]

theorem C6_path_structure_witness :
    selectHit ([] : List Obj) ⟨⟨0,0,0⟩, ⟨1,0,0⟩, 1⟩ = none ∧
    traceAux ([] : List Obj) (200 : ℚ) (0 + 1) (fun _ => 0)
        ⟨⟨0,0,0⟩, ⟨1,0,0⟩, 1⟩ =
      [(Vec3.mk 0 0 0) + (200 : ℚ) • (Vec3.mk 1 0 0)] :=
  ⟨by decide,
    (C6_path_structure [] ⟨5, 200⟩ (fun _ => 0)
        ⟨⟨0,0,0⟩, ⟨1,0,0⟩, 1⟩).2.2.2.2 0 (fun _ => 0)
      ⟨⟨0,0,0⟩, ⟨1,0,0⟩, 1⟩ (by decide)⟩

theorem selectStep_as_clip (r : Ray) (st : Option HitRecord × Qinf) (o : Obj) :
    selectStep r st o =
      match clipFirst st.2 (firstHit o r (1/1000) st.2) with
      | some h => (some h, (h.t : Qinf))
      | none => st := by
  simp only [selectStep, clipFirst]
  cases firstHit o r (1/1000) st.2 with
  | none => rfl
  | some h =>
    by_cases hlt : (h.t : Qinf) < st.2
    · simp [hlt]
    · simp [hlt]

theorem minStep_as_clip (r : Ray) (st : Option HitRecord × Qinf) (o : Obj) :
    minStep r st o =
      match clipFirst st.2 (firstHit o r (1/1000) ⊤) with
      | some h => (some h, (h.t : Qinf))
      | none => st := by
  simp only [minStep, clipFirst]
  cases firstHit o r (1/1000) ⊤ with
  | none => rfl
  | some h =>
    by_cases hlt : (h.t : Qinf) < st.2
    · simp [hlt]
    · simp [hlt]

theorem selectStep_eq_minStep (r : Ray) (o : Obj) (hco : Coherent o)
    (st : Option HitRecord × Qinf) : selectStep r st o = minStep r st o := by
  rw [selectStep_as_clip, minStep_as_clip, hco r (1/1000) st.2]

theorem foldl_select_eq_foldl_min (r : Ray) :
    ∀ (objs : List Obj), (∀ o ∈ objs, Coherent o) →
    ∀ st, objs.foldl (selectStep r) st = objs.foldl (minStep r) st := by
  intro objs
  induction objs with
  | nil => intro _ st; rfl
  | cons o rest ih =>
    intro hco st
    simp only [List.foldl_cons]
    rw [selectStep_eq_minStep r o (hco o (by simp)) st]
    exact ih (fun o2 h2 => hco o2 (by simp [h2])) _

/-- C4 (amended): each bounce scans objects in list order with bounds
`(0.001, current best)` and adopts an object's first returned hit exactly when
its `t` is strictly below the current best (second conjunct, unconditional);
provided every object reports hits window-coherently — narrowing `t_max` never
changes which hit below the bound comes first, as is the case for sorted hit
lists — the selected hit is the smallest-`t` unbounded first hit across
objects, ties going to the earliest object (first conjunct). -/
theorem C4_selection_amended (objects : List Obj) (r : Ray)
    (hco : ∀ o ∈ objects, Coherent o) :
    selectHit objects r = minFirstHit objects r ∧
    (∀ (st : Option HitRecord × Qinf) (o : Obj),
      selectStep r st o =
        match firstHit o r (1/1000) st.2 with
        | some first_hit =>
          if (first_hit.t : Qinf) < st.2 then (some first_hit, (first_hit.t : Qinf))
          else st
        | none => st) := by
  constructor
  · unfold selectHit minFirstHit
    rw [foldl_select_eq_foldl_min r objects hco]
  · intro st o; rfl

theorem obj5_coherent : Coherent obj5 := by
  intro r tm b
  simp only [obj5, firstHit, clipFirst]
  by_cases h1 : tm < 5
  · by_cases h2 : ((5:ℚ) : Qinf) < b
    · rw [if_pos ⟨h1, h2⟩, if_pos ⟨h1, WithTop.coe_lt_top (5:ℚ)⟩]
    · rw [if_neg (fun hc => h2 hc.2), if_pos ⟨h1, WithTop.coe_lt_top (5:ℚ)⟩]
      show (none : Option HitRecord) =
        if ((5:ℚ) : Qinf) < b then
          some ⟨5, ⟨0,0,0⟩, ⟨0,1,0⟩, true, .Mirror⟩
        else none
      rw [if_neg h2]
  · rw [if_neg (fun hc => h1 hc.1), if_neg (fun hc => h1 hc.1)]

theorem C4_selection_amended_witness :
    (∀ o ∈ [obj5], Coherent o) ∧
    selectHit [obj5] ⟨⟨0,0,0⟩, ⟨1,0,0⟩, 1⟩ =
      minFirstHit [obj5] ⟨⟨0,0,0⟩, ⟨1,0,0⟩, 1⟩ ∧
    selectHit [obj5] ⟨⟨0,0,0⟩, ⟨1,0,0⟩, 1⟩ =
      some ⟨5, ⟨0,0,0⟩, ⟨0,1,0⟩, true, .Mirror⟩ :=
  ⟨fun o ho => by rw [List.mem_singleton] at ho; rw [ho]; exact obj5_coherent,
    (C4_selection_amended [obj5] ⟨⟨0,0,0⟩, ⟨1,0,0⟩, 1⟩
      (fun o ho => by rw [List.mem_singleton] at ho; rw [ho]; exact obj5_coherent)).1,
    by decide⟩

/-- C4 counterexample: with the repo's own InfiniteCone (whose two hits can
come back in decreasing `t` order) after a plane, the loop adopts a hit at
`t = 2` even though the objects' first returned hits are at `t = 10` and
`t = 18` — the selected hit is not the smallest-`t` first hit across
objects. -/
theorem C4_counterexample :
    (selectHit [planeIntersectAll ⟨⟨0,0,0⟩, ⟨1,0,0⟩, .Mirror⟩,
        coneIntersectAll ⟨⟨0,0,0⟩, ⟨0,1,0⟩, 1/5, .Mirror⟩]
      ⟨⟨-10,4,0⟩, ⟨1,0,0⟩, 1⟩).map HitRecord.t = some 2 ∧
    (firstHit (planeIntersectAll ⟨⟨0,0,0⟩, ⟨1,0,0⟩, .Mirror⟩)
      ⟨⟨-10,4,0⟩, ⟨1,0,0⟩, 1⟩ (1/1000) ⊤).map HitRecord.t = some 10 ∧
    (firstHit (coneIntersectAll ⟨⟨0,0,0⟩, ⟨0,1,0⟩, 1/5, .Mirror⟩)
      ⟨⟨-10,4,0⟩, ⟨1,0,0⟩, 1⟩ (1/1000) ⊤).map HitRecord.t = some 18 ∧
    (minFirstHit [planeIntersectAll ⟨⟨0,0,0⟩, ⟨1,0,0⟩, .Mirror⟩,
        coneIntersectAll ⟨⟨0,0,0⟩, ⟨0,1,0⟩, 1/5, .Mirror⟩]
      ⟨⟨-10,4,0⟩, ⟨1,0,0⟩, 1⟩).map HitRecord.t = some 10 := by
  refine ⟨?_, ?_, ?_, ?_⟩ <;> · set_option maxRecDepth 100000 in decide

theorem qmin_le_self (q : Qinf) (x : ℚ) : ((qmin q x : ℚ) : Qinf) ≤ q := by
  cases q using WithTop.recTopCoe with
  | top => exact le_top
  | coe v =>
    simp only [qmin, WithTop.untop'_coe]
    exact WithTop.coe_le_coe.mpr (min_le_left v x)

theorem mem_ite_list {c : Prop} [Decidable c] {l : List HitRecord}
    {h : HitRecord} (hm : h ∈ if c then l else []) : h ∈ l := by
  split at hm
  · exact hm
  · simp at hm

theorem shape_ite_list {c : Prop} [Decidable c] {l : List HitRecord} {tv : ℚ}
    (hs : l = [] ∨ ∃ h0, l = [h0] ∧ h0.t = tv) :
    (if c then l else []) = [] ∨
      ∃ h0, (if c then l else []) = [h0] ∧ h0.t = tv := by
  split
  · exact hs
  · exact Or.inl rfl

theorem chain_of_two_shapes (l1 l2 : List HitRecord) (t1v t2v : ℚ)
    (h1 : l1 = [] ∨ ∃ h0, l1 = [h0] ∧ h0.t = t1v)
    (h2 : l2 = [] ∨ ∃ h0, l2 = [h0] ∧ h0.t = t2v)
    (hle : t1v ≤ t2v) : List.Chain' (fun a b => a.t ≤ b.t) (l1 ++ l2) := by
  rcases h1 with rfl | ⟨a, rfl, ha⟩ <;> rcases h2 with rfl | ⟨b, rfl, hb⟩
  · simp
  · simp
  · simp
  · refine List.chain'_cons.mpr ⟨?_, by simp⟩
    rw [ha, hb]
    exact hle

theorem sphereHitAt_mem (s : Sphere) (r : Ray) (t_min : ℚ) (t_max : Qinf)
    (t : ℚ) (h : HitRecord) (hm : h ∈ sphereHitAt s r t_min t_max t) :
    t_min < h.t ∧ (h.t : Qinf) < t_max := by
  simp only [sphereHitAt] at hm
  split at hm
  · next hg =>
    rw [List.mem_singleton] at hm
    subst hm
    exact ⟨hg.1, hg.2⟩
  · simp at hm

theorem sphereHitAt_shape (s : Sphere) (r : Ray) (t_min : ℚ) (t_max : Qinf)
    (t : ℚ) :
    sphereHitAt s r t_min t_max t = [] ∨
      ∃ h0, sphereHitAt s r t_min t_max t = [h0] ∧ h0.t = t := by
  simp only [sphereHitAt]
  split
  · exact Or.inr ⟨_, rfl, rfl⟩
  · exact Or.inl rfl

theorem cylinderHitAt_mem (cy : InfiniteCylinder) (r : Ray) (t_min : ℚ)
    (t_max : Qinf) (t : ℚ) (h : HitRecord)
    (hm : h ∈ cylinderHitAt cy r t_min t_max t) :
    t_min < h.t ∧ (h.t : Qinf) < t_max := by
  simp only [cylinderHitAt] at hm
  split at hm
  · next hg =>
    rw [List.mem_singleton] at hm
    subst hm
    exact ⟨hg.1, hg.2⟩
  · simp at hm

theorem cylinderHitAt_shape (cy : InfiniteCylinder) (r : Ray) (t_min : ℚ)
    (t_max : Qinf) (t : ℚ) :
    cylinderHitAt cy r t_min t_max t = [] ∨
      ∃ h0, cylinderHitAt cy r t_min t_max t = [h0] ∧ h0.t = t := by
  simp only [cylinderHitAt]
  split
  · exact Or.inr ⟨_, rfl, rfl⟩
  · exact Or.inl rfl

theorem coneHitAt_mem (cn : InfiniteCone) (r : Ray) (t_min : ℚ) (t_max : Qinf)
    (t : ℚ) (h : HitRecord) (hm : h ∈ coneHitAt cn r t_min t_max t) :
    t_min < h.t ∧ (h.t : Qinf) < t_max := by
  simp only [coneHitAt] at hm
  split at hm
  · next hg =>
    rw [List.mem_singleton] at hm
    subst hm
    exact ⟨hg.1, hg.2⟩
  · simp at hm

theorem coneHitAt_shape (cn : InfiniteCone) (r : Ray) (t_min : ℚ) (t_max : Qinf)
    (t : ℚ) :
    coneHitAt cn r t_min t_max t = [] ∨
      ∃ h0, coneHitAt cn r t_min t_max t = [h0] ∧ h0.t = t := by
  simp only [coneHitAt]
  split
  · exact Or.inr ⟨_, rfl, rfl⟩
  · exact Or.inl rfl

theorem plane_range_sorted (p : Plane) (r : Ray) (t_min : ℚ) (t_max : Qinf)
    (hits : List HitRecord)
    (hsome : planeIntersectAll p r t_min t_max = some hits) :
    (∀ h ∈ hits, t_min ≤ h.t ∧ (h.t : Qinf) ≤ t_max) ∧
    List.Chain' (fun a b => a.t ≤ b.t) hits := by
  simp only [planeIntersectAll] at hsome
  split at hsome
  · exact absurd hsome (by simp)
  · split at hsome
    · exact absurd hsome (by simp)
    · next hcond =>
      rw [Option.some.injEq] at hsome
      subst hsome
      push_neg at hcond
      refine ⟨?_, by simp⟩
      intro h hm
      rw [List.mem_singleton] at hm
      subst hm
      exact ⟨hcond.1, hcond.2⟩

theorem sphere_range_sorted (s : Sphere) (r : Ray) (t_min : ℚ) (t_max : Qinf)
    (hits : List HitRecord)
    (hsome : sphereIntersectAll s r t_min t_max = some hits) :
    (∀ h ∈ hits, t_min < h.t ∧ (h.t : Qinf) < t_max) ∧
    (lsq r.direction ≠ 0 → List.Chain' (fun a b => a.t ≤ b.t) hits) := by
  simp only [sphereIntersectAll] at hsome
  generalize hhb : dotQ (r.origin - s.center) r.direction = hb at hsome
  generalize hA : lsq r.direction = a at hsome
  generalize hC : lsq (r.origin - s.center) - s.radius * s.radius = c at hsome
  generalize hD : hb * hb - a * c = disc at hsome
  generalize hS : ratSqrt disc = sq at hsome
  generalize hT1 : (-hb - sq) / a = tt1 at hsome
  generalize hT2 : (-hb + sq) / a = tt2 at hsome
  have hle : a ≠ 0 → tt1 ≤ tt2 := by
    intro ha
    have h0 : (0:ℚ) ≤ a := hA ▸ lsq_nonneg r.direction
    have hapos : 0 < a := lt_of_le_of_ne h0 (Ne.symm ha)
    have hsq0 : 0 ≤ sq := hS ▸ ratSqrt_nonneg disc
    rw [← hT1, ← hT2]
    exact (div_le_div_iff_of_pos_right hapos).mpr (by linarith)
  split at hsome
  · exact absurd hsome (by simp)
  · split at hsome <;> split at hsome
    · exact absurd hsome (by simp)
    · rw [Option.some.injEq] at hsome
      subst hsome
      constructor
      · intro h hm
        rcases List.mem_append.mp hm with hmem | hmem
        · exact sphereHitAt_mem s r t_min t_max tt1 h hmem
        · exact sphereHitAt_mem s r t_min t_max tt2 h hmem
      · intro ha
        exact chain_of_two_shapes _ _ tt1 tt2
          (sphereHitAt_shape s r t_min t_max tt1)
          (sphereHitAt_shape s r t_min t_max tt2) (hle ha)
    · exact absurd hsome (by simp)
    · rw [Option.some.injEq] at hsome
      subst hsome
      constructor
      · intro h hm
        rcases List.mem_append.mp hm with hmem | hmem
        · exact sphereHitAt_mem s r t_min t_max tt1 h hmem
        · simp at hmem
      · intro ha
        exact chain_of_two_shapes _ _ tt1 tt2
          (sphereHitAt_shape s r t_min t_max tt1) (Or.inl rfl) (hle ha)

theorem cylinder_range_sorted (cy : InfiniteCylinder) (r : Ray) (t_min : ℚ)
    (t_max : Qinf) (hits : List HitRecord)
    (hsome : cylinderIntersectAll cy r t_min t_max = some hits) :
    (∀ h ∈ hits, t_min < h.t ∧ (h.t : Qinf) < t_max) ∧
    List.Chain' (fun a b => a.t ≤ b.t) hits := by
  simp only [cylinderIntersectAll] at hsome
  generalize hA : lsq (r.direction - dotQ r.direction cy.axis_dir • cy.axis_dir)
    = a at hsome
  generalize hB : 2 * dotQ
      (r.origin - cy.axis_point -
        dotQ (r.origin - cy.axis_point) cy.axis_dir • cy.axis_dir)
      (r.direction - dotQ r.direction cy.axis_dir • cy.axis_dir) = b at hsome
  generalize hC : lsq
      (r.origin - cy.axis_point -
        dotQ (r.origin - cy.axis_point) cy.axis_dir • cy.axis_dir) -
      cy.radius * cy.radius = c at hsome
  generalize hD : b * b - 4 * a * c = disc at hsome
  generalize hS : ratSqrt disc = sq at hsome
  generalize hT1 : (-b - sq) / (2 * a) = tt1 at hsome
  generalize hT2 : (-b + sq) / (2 * a) = tt2 at hsome
  split at hsome
  · exact absurd hsome (by simp)
  · next hga =>
    have h0 : (0:ℚ) ≤ a := hA ▸ lsq_nonneg _
    have hapos : 0 < a := by
      have hge : (1:ℚ)/1000000 ≤ |a| := not_lt.mp hga
      rw [abs_of_nonneg h0] at hge
      linarith
    have hle : tt1 ≤ tt2 := by
      have hsq0 : 0 ≤ sq := hS ▸ ratSqrt_nonneg disc
      rw [← hT1, ← hT2]
      exact (div_le_div_iff_of_pos_right (by linarith)).mpr (by linarith)
    split at hsome
    · exact absurd hsome (by simp)
    · split at hsome
      · exact absurd hsome (by simp)
      · rw [Option.some.injEq] at hsome
        subst hsome
        constructor
        · intro h hm
          rcases List.mem_append.mp hm with hmem | hmem
          · exact cylinderHitAt_mem cy r t_min t_max tt1 h hmem
          · exact cylinderHitAt_mem cy r t_min t_max tt2 h hmem
        · exact chain_of_two_shapes _ _ tt1 tt2
            (cylinderHitAt_shape cy r t_min t_max tt1)
            (cylinderHitAt_shape cy r t_min t_max tt2) hle

theorem cone_range_sorted (cn : InfiniteCone) (r : Ray) (t_min : ℚ)
    (t_max : Qinf) (hits : List HitRecord)
    (hsome : coneIntersectAll cn r t_min t_max = some hits) :
    (∀ h ∈ hits, t_min < h.t ∧ (h.t : Qinf) < t_max) ∧
    (0 < dotQ r.direction cn.axis_dir * dotQ r.direction cn.axis_dir -
        cn.cos_angle_sq →
      List.Chain' (fun a b => a.t ≤ b.t) hits) := by
  simp only [coneIntersectAll] at hsome
  generalize hA : dotQ r.direction cn.axis_dir * dotQ r.direction cn.axis_dir -
    cn.cos_angle_sq = a at hsome ⊢
  generalize hB : 2 * (dotQ r.direction cn.axis_dir *
      dotQ (r.origin - cn.vertex) cn.axis_dir -
      dotQ r.direction (r.origin - cn.vertex) * cn.cos_angle_sq) = b at hsome
  generalize hC : dotQ (r.origin - cn.vertex) cn.axis_dir *
      dotQ (r.origin - cn.vertex) cn.axis_dir -
      lsq (r.origin - cn.vertex) * cn.cos_angle_sq = c at hsome
  generalize hD : b * b - 4 * a * c = disc at hsome
  generalize hS : ratSqrt disc = sq at hsome
  generalize hT1 : (-b - sq) / (2 * a) = tt1 at hsome
  generalize hT2 : (-b + sq) / (2 * a) = tt2 at hsome
  split at hsome
  · exact absurd hsome (by simp)
  · split at hsome
    · exact absurd hsome (by simp)
    · rw [Option.some.injEq] at hsome
      subst hsome
      constructor
      · intro h hm
        rcases List.mem_append.mp hm with hmem | hmem
        · exact coneHitAt_mem cn r t_min t_max tt1 h hmem
        · exact coneHitAt_mem cn r t_min t_max tt2 h hmem
      · intro hapos
        have hle : tt1 ≤ tt2 := by
          have hsq0 : 0 ≤ sq := hS ▸ ratSqrt_nonneg disc
          rw [← hT1, ← hT2]
          exact (div_le_div_iff_of_pos_right (by linarith)).mpr (by linarith)
        exact chain_of_two_shapes _ _ tt1 tt2
          (coneHitAt_shape cn r t_min t_max tt1)
          (coneHitAt_shape cn r t_min t_max tt2) hle

theorem box_range_sorted (bx : AxisAlignedBox) (r : Ray) (t_min : ℚ)
    (t_max : Qinf) (hits : List HitRecord)
    (hsome : boxIntersectAll bx r t_min t_max = some hits) :
    (∀ h ∈ hits, t_min ≤ h.t ∧ (h.t : Qinf) ≤ t_max) ∧
    List.Chain' (fun a b => a.t ≤ b.t) hits := by
  simp only [boxIntersectAll] at hsome
  generalize hpx : slabAxis bx.min.x bx.max.x r.origin.x r.direction.x = px
    at hsome
  generalize hpy : slabAxis bx.min.y bx.max.y r.origin.y r.direction.y = py
    at hsome
  generalize hpz : slabAxis bx.min.z bx.max.z r.origin.z r.direction.z = pz
    at hsome
  generalize hm1 : max t_min px.1 = tmin1 at hsome
  generalize hx1 : qmin t_max px.2 = tmax1 at hsome
  generalize hm2 : max tmin1 py.1 = tmin2 at hsome
  generalize hx2 : min tmax1 py.2 = tmax2 at hsome
  generalize hm3 : max tmin2 pz.1 = tmin3 at hsome
  generalize hx3 : min tmax2 pz.2 = tmax3 at hsome
  split at hsome
  · exact absurd hsome (by simp)
  · split at hsome
    · exact absurd hsome (by simp)
    · split at hsome
      · exact absurd hsome (by simp)
      · next hguard =>
        rw [Option.some.injEq] at hsome
        subst hsome
        have hlt : tmin3 < tmax3 := not_le.mp (fun hc => hguard hc)
        have htmin : t_min ≤ tmin3 := by
          have e1 : t_min ≤ tmin1 := hm1 ▸ le_max_left _ _
          have e2 : tmin1 ≤ tmin2 := hm2 ▸ le_max_left _ _
          have e3 : tmin2 ≤ tmin3 := hm3 ▸ le_max_left _ _
          linarith
        have htmax : ((tmax3 : ℚ) : Qinf) ≤ t_max := by
          have e3 : tmax3 ≤ tmax2 := hx3 ▸ min_le_left _ _
          have e2 : tmax2 ≤ tmax1 := hx2 ▸ min_le_left _ _
          have e1 : ((tmax1 : ℚ) : Qinf) ≤ t_max := hx1 ▸ qmin_le_self t_max px.2
          exact le_trans (WithTop.coe_le_coe.mpr (by linarith)) e1
        constructor
        · intro h hm
          rcases List.mem_cons.mp hm with rfl | hm2
          · exact ⟨htmin,
              le_trans (WithTop.coe_le_coe.mpr (le_of_lt hlt)) htmax⟩
          · rcases List.mem_singleton.mp hm2 with rfl
            exact ⟨le_trans htmin (le_of_lt hlt), htmax⟩
        · exact List.chain'_cons.mpr ⟨le_of_lt hlt, by simp⟩

/-- C3 (amended): every returned `t` lies in the closed window
`[t_min, t_max]`; for Sphere, InfiniteCylinder and InfiniteCone the bounds are
strict, while Plane and AxisAlignedBox can return `t` equal to a bound.
Returned lists are nondecreasing in `t` for Plane, AxisAlignedBox,
InfiniteCylinder, and for Sphere when the direction is nonzero; for
InfiniteCone nondecreasing order is guaranteed only when the quadratic's
leading coefficient `(D·V)² − cos²α` is positive (a ray crossing both nappes
makes it negative and the two hits come back in decreasing order). -/
theorem C3_window_and_order :
    (∀ (s : Sphere) (r : Ray) (t_min : ℚ) (t_max : Qinf)
        (hits : List HitRecord),
      sphereIntersectAll s r t_min t_max = some hits →
      (∀ h ∈ hits, t_min < h.t ∧ (h.t : Qinf) < t_max) ∧
      (lsq r.direction ≠ 0 → List.Chain' (fun a b => a.t ≤ b.t) hits)) ∧
    (∀ (p : Plane) (r : Ray) (t_min : ℚ) (t_max : Qinf)
        (hits : List HitRecord),
      planeIntersectAll p r t_min t_max = some hits →
      (∀ h ∈ hits, t_min ≤ h.t ∧ (h.t : Qinf) ≤ t_max) ∧
      List.Chain' (fun a b => a.t ≤ b.t) hits) ∧
    (∀ (cy : InfiniteCylinder) (r : Ray) (t_min : ℚ) (t_max : Qinf)
        (hits : List HitRecord),
      cylinderIntersectAll cy r t_min t_max = some hits →
      (∀ h ∈ hits, t_min < h.t ∧ (h.t : Qinf) < t_max) ∧
      List.Chain' (fun a b => a.t ≤ b.t) hits) ∧
    (∀ (cn : InfiniteCone) (r : Ray) (t_min : ℚ) (t_max : Qinf)
        (hits : List HitRecord),
      coneIntersectAll cn r t_min t_max = some hits →
      (∀ h ∈ hits, t_min < h.t ∧ (h.t : Qinf) < t_max) ∧
      (0 < dotQ r.direction cn.axis_dir * dotQ r.direction cn.axis_dir -
          cn.cos_angle_sq →
        List.Chain' (fun a b => a.t ≤ b.t) hits)) ∧
    (∀ (bx : AxisAlignedBox) (r : Ray) (t_min : ℚ) (t_max : Qinf)
        (hits : List HitRecord),
      boxIntersectAll bx r t_min t_max = some hits →
      (∀ h ∈ hits, t_min ≤ h.t ∧ (h.t : Qinf) ≤ t_max) ∧
      List.Chain' (fun a b => a.t ≤ b.t) hits) :=
  ⟨sphere_range_sorted, plane_range_sorted, cylinder_range_sorted,
    cone_range_sorted, box_range_sorted⟩

theorem C3_window_and_order_witness :
    sphereIntersectAll ⟨⟨0,0,0⟩, 5, .Mirror⟩ ⟨⟨-10,0,0⟩, ⟨1,0,0⟩, 1⟩ (1/1000)
        ((100:ℚ) : Qinf) =
      some [⟨5, ⟨-5,0,0⟩, ⟨-1,0,0⟩, true, .Mirror⟩,
            ⟨15, ⟨5,0,0⟩, ⟨-1,0,0⟩, false, .Mirror⟩] ∧
    ((1/1000 : ℚ) < (5:ℚ) ∧ (((5:ℚ) : ℚ) : Qinf) < ((100:ℚ) : Qinf)) ∧
    List.Chain' (fun a b => a.t ≤ b.t)
      [(⟨5, ⟨-5,0,0⟩, ⟨-1,0,0⟩, true, .Mirror⟩ : HitRecord),
       ⟨15, ⟨5,0,0⟩, ⟨-1,0,0⟩, false, .Mirror⟩] :=
  ⟨by decide,
    by
      have h := (C3_window_and_order.1 ⟨⟨0,0,0⟩, 5, .Mirror⟩
        ⟨⟨-10,0,0⟩, ⟨1,0,0⟩, 1⟩ (1/1000) ((100:ℚ) : Qinf)
        [⟨5, ⟨-5,0,0⟩, ⟨-1,0,0⟩, true, .Mirror⟩,
         ⟨15, ⟨5,0,0⟩, ⟨-1,0,0⟩, false, .Mirror⟩] (by decide)).1
        ⟨5, ⟨-5,0,0⟩, ⟨-1,0,0⟩, true, .Mirror⟩ (by decide)
      exact h,
    (C3_window_and_order.1 ⟨⟨0,0,0⟩, 5, .Mirror⟩
      ⟨⟨-10,0,0⟩, ⟨1,0,0⟩, 1⟩ (1/1000) ((100:ℚ) : Qinf)
      [⟨5, ⟨-5,0,0⟩, ⟨-1,0,0⟩, true, .Mirror⟩,
       ⟨15, ⟨5,0,0⟩, ⟨-1,0,0⟩, false, .Mirror⟩] (by decide)).2 (by decide)⟩

/-- C3 counterexample: (i) a Plane returns a hit with `t` exactly equal to
`t_min` (the guard `t < t_min || t_max < t` is not strict), refuting the
strict-window part; (ii) the InfiniteCone, on a ray crossing both nappes,
returns its two hits in strictly decreasing `t` order, refuting
monotonicity. -/
theorem C3_counterexample :
    planeIntersectAll ⟨⟨0,1,0⟩, ⟨0,1,0⟩, .Mirror⟩ ⟨⟨0,2,0⟩, ⟨0,-1,0⟩, 1⟩ 1
        ((5:ℚ) : Qinf) =
      some [⟨1, ⟨0,1,0⟩, ⟨0,1,0⟩, true, .Mirror⟩] ∧
    ¬((1:ℚ) < 1) ∧
    (coneIntersectAll ⟨⟨0,0,0⟩, ⟨0,1,0⟩, 1/5, .Mirror⟩
        ⟨⟨-10,4,0⟩, ⟨1,0,0⟩, 1⟩ (1/1000) ((100:ℚ) : Qinf)).map
      (List.map HitRecord.t) = some [18, 2] ∧
    ¬((18:ℚ) ≤ 2) := by
  refine ⟨?_, ?_, ?_, ?_⟩ <;> · set_option maxRecDepth 100000 in decide

theorem flip_dot_nonpos (d out : Vec3) :
    dotQ d (if decide (dotQ d out < 0) = true then out else -out) ≤ 0 := by
  by_cases hd : dotQ d out < 0
  · rw [if_pos (by simpa using hd)]
    exact le_of_lt hd
  · rw [if_neg (by simpa using hd), dotQ_neg_right]
    linarith [not_lt.mp hd]

theorem sphereHitAt_normal (s : Sphere) (r : Ray) (t_min : ℚ) (t_max : Qinf)
    (t : ℚ) (h : HitRecord) (hm : h ∈ sphereHitAt s r t_min t_max t) :
    dotQ r.direction h.normal ≤ 0 := by
  simp only [sphereHitAt] at hm
  split at hm
  · rw [List.mem_singleton] at hm
    subst hm
    exact flip_dot_nonpos r.direction _
  · simp at hm

theorem cylinderHitAt_normal (cy : InfiniteCylinder) (r : Ray) (t_min : ℚ)
    (t_max : Qinf) (t : ℚ) (h : HitRecord)
    (hm : h ∈ cylinderHitAt cy r t_min t_max t) :
    dotQ r.direction h.normal ≤ 0 := by
  simp only [cylinderHitAt] at hm
  split at hm
  · rw [List.mem_singleton] at hm
    subst hm
    exact flip_dot_nonpos r.direction _
  · simp at hm

theorem coneHitAt_normal (cn : InfiniteCone) (r : Ray) (t_min : ℚ)
    (t_max : Qinf) (t : ℚ) (h : HitRecord)
    (hm : h ∈ coneHitAt cn r t_min t_max t) :
    dotQ r.direction h.normal ≤ 0 := by
  simp only [coneHitAt] at hm
  split at hm
  · rw [List.mem_singleton] at hm
    subst hm
    exact flip_dot_nonpos r.direction _
  · simp at hm

theorem sphere_mem_hitAt (s : Sphere) (r : Ray) (t_min : ℚ) (t_max : Qinf)
    (hits : List HitRecord) (h : HitRecord)
    (hsome : sphereIntersectAll s r t_min t_max = some hits) (hm : h ∈ hits) :
    ∃ t0, h ∈ sphereHitAt s r t_min t_max t0 := by
  simp only [sphereIntersectAll] at hsome
  split at hsome
  · exact absurd hsome (by simp)
  · split at hsome <;> split at hsome
    · exact absurd hsome (by simp)
    · rw [Option.some.injEq] at hsome
      subst hsome
      rcases List.mem_append.mp hm with hmem | hmem
      · exact ⟨_, hmem⟩
      · exact ⟨_, hmem⟩
    · exact absurd hsome (by simp)
    · rw [Option.some.injEq] at hsome
      subst hsome
      rcases List.mem_append.mp hm with hmem | hmem
      · exact ⟨_, hmem⟩
      · simp at hmem

theorem cylinder_mem_hitAt (cy : InfiniteCylinder) (r : Ray) (t_min : ℚ)
    (t_max : Qinf) (hits : List HitRecord) (h : HitRecord)
    (hsome : cylinderIntersectAll cy r t_min t_max = some hits)
    (hm : h ∈ hits) : ∃ t0, h ∈ cylinderHitAt cy r t_min t_max t0 := by
  simp only [cylinderIntersectAll] at hsome
  split at hsome
  · exact absurd hsome (by simp)
  · split at hsome
    · exact absurd hsome (by simp)
    · split at hsome
      · exact absurd hsome (by simp)
      · rw [Option.some.injEq] at hsome
        subst hsome
        rcases List.mem_append.mp hm with hmem | hmem
        · exact ⟨_, hmem⟩
        · exact ⟨_, hmem⟩

theorem cone_mem_hitAt (cn : InfiniteCone) (r : Ray) (t_min : ℚ)
    (t_max : Qinf) (hits : List HitRecord) (h : HitRecord)
    (hsome : coneIntersectAll cn r t_min t_max = some hits) (hm : h ∈ hits) :
    ∃ t0, h ∈ coneHitAt cn r t_min t_max t0 := by
  simp only [coneIntersectAll] at hsome
  split at hsome
  · exact absurd hsome (by simp)
  · split at hsome
    · exact absurd hsome (by simp)
    · rw [Option.some.injEq] at hsome
      subst hsome
      rcases List.mem_append.mp hm with hmem | hmem
      · exact ⟨_, hmem⟩
      · exact ⟨_, hmem⟩

/-- C7 (amended): for Sphere, Plane, InfiniteCylinder and InfiniteCone, every
returned HitRecord has `dot(ray.direction, hit.normal) ≤ 0` — these four
primitives flip the outward normal against the ray via `front_face`.  For
AxisAlignedBox the property can fail (see the counterexample): its ε = 1e-4
face classification can attribute the hit to a face plane the ray did not
cross, in which case the stored normal has strictly positive dot product with
the ray direction, far beyond any tolerance. -/
theorem C7_normals_against_ray :
    (∀ (s : Sphere) (r : Ray) (t_min : ℚ) (t_max : Qinf)
        (hits : List HitRecord) (h : HitRecord),
      sphereIntersectAll s r t_min t_max = some hits → h ∈ hits →
      dotQ r.direction h.normal ≤ 0) ∧
    (∀ (p : Plane) (r : Ray) (t_min : ℚ) (t_max : Qinf)
        (hits : List HitRecord) (h : HitRecord),
      planeIntersectAll p r t_min t_max = some hits → h ∈ hits →
      dotQ r.direction h.normal ≤ 0) ∧
    (∀ (cy : InfiniteCylinder) (r : Ray) (t_min : ℚ) (t_max : Qinf)
        (hits : List HitRecord) (h : HitRecord),
      cylinderIntersectAll cy r t_min t_max = some hits → h ∈ hits →
      dotQ r.direction h.normal ≤ 0) ∧
    (∀ (cn : InfiniteCone) (r : Ray) (t_min : ℚ) (t_max : Qinf)
        (hits : List HitRecord) (h : HitRecord),
      coneIntersectAll cn r t_min t_max = some hits → h ∈ hits →
      dotQ r.direction h.normal ≤ 0) := by
  refine ⟨?_, ?_, ?_, ?_⟩
  · intro s r t_min t_max hits h hsome hm
    rcases sphere_mem_hitAt s r t_min t_max hits h hsome hm with ⟨t0, hmem⟩
    exact sphereHitAt_normal s r t_min t_max t0 h hmem
  · intro p r t_min t_max hits h hsome hm
    simp only [planeIntersectAll] at hsome
    split at hsome
    · exact absurd hsome (by simp)
    · split at hsome
      · exact absurd hsome (by simp)
      · rw [Option.some.injEq] at hsome
        subst hsome
        rw [List.mem_singleton] at hm
        subst hm
        exact flip_dot_nonpos r.direction p.normal
  · intro cy r t_min t_max hits h hsome hm
    rcases cylinder_mem_hitAt cy r t_min t_max hits h hsome hm with ⟨t0, hmem⟩
    exact cylinderHitAt_normal cy r t_min t_max t0 h hmem
  · intro cn r t_min t_max hits h hsome hm
    rcases cone_mem_hitAt cn r t_min t_max hits h hsome hm with ⟨t0, hmem⟩
    exact coneHitAt_normal cn r t_min t_max t0 h hmem

theorem C7_normals_against_ray_witness :
    sphereIntersectAll ⟨⟨0,0,0⟩, 5, .Glass (3/2)⟩ ⟨⟨-10,0,0⟩, ⟨1,0,0⟩, 1⟩
        (1/1000) ((100:ℚ) : Qinf) =
      some [⟨5, ⟨-5,0,0⟩, ⟨-1,0,0⟩, true, .Glass (3/2)⟩,
            ⟨15, ⟨5,0,0⟩, ⟨-1,0,0⟩, false, .Glass (3/2)⟩] ∧
    dotQ (Vec3.mk 1 0 0) (Vec3.mk (-1) 0 0) ≤ 0 :=
  ⟨by decide,
    C7_normals_against_ray.1 ⟨⟨0,0,0⟩, 5, .Glass (3/2)⟩
      ⟨⟨-10,0,0⟩, ⟨1,0,0⟩, 1⟩ (1/1000) ((100:ℚ) : Qinf)
      [⟨5, ⟨-5,0,0⟩, ⟨-1,0,0⟩, true, .Glass (3/2)⟩,
       ⟨15, ⟨5,0,0⟩, ⟨-1,0,0⟩, false, .Glass (3/2)⟩]
      ⟨15, ⟨5,0,0⟩, ⟨-1,0,0⟩, false, .Glass (3/2)⟩ (by decide) (by decide)⟩

/-- C7 counterexample: an AxisAlignedBox exit hit whose point lies within
1e-4 of the `x = min` face plane (which the ray never crossed) is classified
as that face; the negated face normal then points along the ray:
`dot(D, normal) = 1`, far above any ε. -/
theorem C7_counterexample :
    boxIntersectAll ⟨⟨0,0,0⟩, ⟨1,1,1⟩, .Mirror⟩
        ⟨⟨1/100000, 9999/10000, 1/2⟩, ⟨1, 20, 1/10⟩, 1⟩ 0 ((100:ℚ) : Qinf) =
      some [⟨0, ⟨1/100000, 9999/10000, 1/2⟩, ⟨-1,0,0⟩, true, .Mirror⟩,
            ⟨1/200000, ⟨3/200000, 1, 1000001/2000000⟩, ⟨1,0,0⟩, false,
              .Mirror⟩] ∧
    dotQ (Vec3.mk 1 20 (1/10)) (Vec3.mk 1 0 0) = 1 ∧
    ¬((1:ℚ) ≤ 1/10000) := by
  refine ⟨?_, ?_, ?_⟩ <;> · set_option maxRecDepth 100000 in decide

theorem sphereHitAt_length (s : Sphere) (r : Ray) (t_min : ℚ) (t_max : Qinf)
    (t : ℚ) :
    (sphereHitAt s r t_min t_max t).length =
      if t > t_min ∧ (t : Qinf) < t_max then 1 else 0 := by
  simp only [sphereHitAt]
  split <;> rfl

/-- C8 (amended): an AxisAlignedBox always returns exactly two HitRecords
when it returns any (count 0 or 2, always even).  A Sphere returns at most
two; its count is even provided the smaller root is inside `(t_min, t_max)`
exactly when the discriminant exceeds 1e-6 and the larger root is inside —
a ray starting inside the sphere, a truncating t-window, or a tangential hit
(discriminant ≤ 1e-6) yields a single, odd-count record. -/
theorem C8_even_crossings :
    (∀ (bx : AxisAlignedBox) (r : Ray) (t_min : ℚ) (t_max : Qinf)
        (hits : List HitRecord),
      boxIntersectAll bx r t_min t_max = some hits → hits.length = 2) ∧
    (∀ (s : Sphere) (r : Ray) (t_min : ℚ) (t_max : Qinf)
        (hits : List HitRecord),
      sphereIntersectAll s r t_min t_max = some hits →
      hits.length ≤ 2 ∧
      (((t_min < sphereT1 s r ∧ ((sphereT1 s r : ℚ) : Qinf) < t_max) ↔
          (1/1000000 < sphereDisc s r ∧
            (t_min < sphereT2 s r ∧ ((sphereT2 s r : ℚ) : Qinf) < t_max))) →
        hits.length % 2 = 0)) := by
  constructor
  · intro bx r t_min t_max hits hsome
    simp only [boxIntersectAll] at hsome
    split at hsome
    · exact absurd hsome (by simp)
    · split at hsome
      · exact absurd hsome (by simp)
      · split at hsome
        · exact absurd hsome (by simp)
        · rw [Option.some.injEq] at hsome
          subst hsome
          rfl
  · intro s r t_min t_max hits hsome
    simp only [sphereIntersectAll] at hsome
    simp only [sphereT1, sphereT2, sphereDisc]
    generalize hhb : dotQ (r.origin - s.center) r.direction = hb at hsome ⊢
    generalize hA : lsq r.direction = a at hsome ⊢
    generalize hC : lsq (r.origin - s.center) - s.radius * s.radius = c
      at hsome ⊢
    generalize hD : hb * hb - a * c = disc at hsome ⊢
    generalize hS : ratSqrt disc = sq at hsome ⊢
    generalize hT1 : (-hb - sq) / a = tt1 at hsome ⊢
    generalize hT2 : (-hb + sq) / a = tt2 at hsome ⊢
    split at hsome
    · exact absurd hsome (by simp)
    · split at hsome <;> split at hsome
      · exact absurd hsome (by simp)
      · next hd2 _ =>
        rw [Option.some.injEq] at hsome
        subst hsome
        rw [List.length_append, sphereHitAt_length, sphereHitAt_length]
        constructor
        · split <;> split <;> simp
        · intro hiff
          by_cases hg1 : tt1 > t_min ∧ (tt1 : Qinf) < t_max <;>
            by_cases hg2 : tt2 > t_min ∧ (tt2 : Qinf) < t_max
          · rw [if_pos hg1, if_pos hg2]
          · exact absurd (hiff.mp hg1).2 hg2
          · exact absurd (hiff.mpr ⟨hd2, hg2⟩) hg1
          · rw [if_neg hg1, if_neg hg2]
      · exact absurd hsome (by simp)
      · next hd2 _ =>
        rw [Option.some.injEq] at hsome
        subst hsome
        rw [List.length_append, sphereHitAt_length]
        constructor
        · split <;> simp
        · intro hiff
          have hng1 : ¬(tt1 > t_min ∧ (tt1 : Qinf) < t_max) := by
            intro hg1
            exact hd2 (hiff.mp hg1).1
          rw [if_neg hng1]
          rfl

theorem C8_even_crossings_witness :
    sphereIntersectAll ⟨⟨0,0,0⟩, 5, .Glass (3/2)⟩ ⟨⟨-10,0,0⟩, ⟨1,0,0⟩, 1⟩
        (1/1000) ((100:ℚ) : Qinf) =
      some [⟨5, ⟨-5,0,0⟩, ⟨-1,0,0⟩, true, .Glass (3/2)⟩,
            ⟨15, ⟨5,0,0⟩, ⟨-1,0,0⟩, false, .Glass (3/2)⟩] ∧
    ([(⟨5, ⟨-5,0,0⟩, ⟨-1,0,0⟩, true, .Glass (3/2)⟩ : HitRecord),
      ⟨15, ⟨5,0,0⟩, ⟨-1,0,0⟩, false, .Glass (3/2)⟩] : List HitRecord).length %
        2 = 0 :=
  ⟨by decide,
    ((C8_even_crossings.2 ⟨⟨0,0,0⟩, 5, .Glass (3/2)⟩ ⟨⟨-10,0,0⟩, ⟨1,0,0⟩, 1⟩
        (1/1000) ((100:ℚ) : Qinf)
        [⟨5, ⟨-5,0,0⟩, ⟨-1,0,0⟩, true, .Glass (3/2)⟩,
         ⟨15, ⟨5,0,0⟩, ⟨-1,0,0⟩, false, .Glass (3/2)⟩]
        (by decide)).2 (by decide))⟩

/-- C8 counterexample: a ray starting at the center of a Glass sphere gets a
single HitRecord (the backward root is out of range), so the count is odd. -/
theorem C8_counterexample :
    sphereIntersectAll ⟨⟨0,0,0⟩, 5, .Glass (3/2)⟩ ⟨⟨0,0,0⟩, ⟨1,0,0⟩, 1⟩
        (1/1000) ((100:ℚ) : Qinf) =
      some [⟨5, ⟨5,0,0⟩, ⟨-1,0,0⟩, false, .Glass (3/2)⟩] ∧
    ([(⟨5, ⟨5,0,0⟩, ⟨-1,0,0⟩, false, .Glass (3/2)⟩ : HitRecord)] :
        List HitRecord).length % 2 = 1 := by
  refine ⟨?_, ?_⟩ <;> · set_option maxRecDepth 100000 in decide

theorem mat4Mul_id_left (m : Mat4) : mat4Mul mat4Id m = m := by
  cases m
  simp only [mat4Mul, mat4Id, Mat4.mk.injEq]
  and_intros <;> ring

theorem mat4Mul_id_right (m : Mat4) : mat4Mul m mat4Id = m := by
  cases m
  simp only [mat4Mul, mat4Id, Mat4.mk.injEq]
  and_intros <;> ring

theorem mat4Mul_assoc (a b c : Mat4) :
    mat4Mul (mat4Mul a b) c = mat4Mul a (mat4Mul b c) := by
  cases a; cases b; cases c
  simp only [mat4Mul, Mat4.mk.injEq]
  and_intros <;> ring

theorem mat4_inv_unique (m a b : Mat4) (h1 : mat4Mul m a = mat4Id)
    (h2 : mat4Mul b m = mat4Id) : a = b := by
  have h3 : mat4Mul b (mat4Mul m a) = b := by rw [h1, mat4Mul_id_right]
  rw [← mat4Mul_assoc, h2, mat4Mul_id_left] at h3
  exact h3

/-- C10: for any inverse `Minv` of the wrapper's matrix M, the wrapper maps
each child HitRecord's `point` by M, its `normal` by the transpose of `Minv`
followed by renormalization, and keeps `t`, `front_face` and `material`
unchanged (the cached `inverse_transform` field is the inverse computed at
construction, expressed here by the hypothesis that it left-inverts M). -/
theorem C10_transform_field_mapping (tr : Transform) (Minv : Mat4)
    (hMinv : mat4Mul tr.transform Minv = mat4Id)
    (hcached : mat4Mul tr.inverse_transform tr.transform = mat4Id)
    (r : Ray) (t_min : ℚ) (t_max : Qinf) :
    transformIntersectAll tr r t_min t_max =
      Option.map (List.map (fun hit =>
        { hit with
            point := transformPoint3 tr.transform hit.point,
            normal := normalizeQ
              (transformVector3 (mat4Transpose Minv) hit.normal) }))
        (tr.object
          ⟨transformPoint3 tr.inverse_transform r.origin,
           transformVector3 tr.inverse_transform r.direction,
           r.current_ior⟩ t_min t_max) := by
  have he : Minv = tr.inverse_transform :=
    mat4_inv_unique tr.transform Minv tr.inverse_transform hMinv hcached
  rw [he]
  simp only [transformIntersectAll]
  cases tr.object
      ⟨transformPoint3 tr.inverse_transform r.origin,
       transformVector3 tr.inverse_transform r.direction,
       r.current_ior⟩ t_min t_max <;> rfl

theorem C10_transform_field_mapping_witness :
    mat4Mul mat4Id mat4Id = mat4Id ∧
    transformIntersectAll ⟨idChild, mat4Id, mat4Id⟩ ⟨⟨0,0,0⟩, ⟨1,0,0⟩, 1⟩
        (1/1000) ⊤ =
      Option.map (List.map (fun hit =>
        { hit with
            point := transformPoint3 mat4Id hit.point,
            normal := normalizeQ
              (transformVector3 (mat4Transpose mat4Id) hit.normal) }))
        (idChild
          ⟨transformPoint3 mat4Id (Vec3.mk 0 0 0),
           transformVector3 mat4Id (Vec3.mk 1 0 0), 1⟩ (1/1000) ⊤) :=
  ⟨by decide,
    C10_transform_field_mapping ⟨idChild, mat4Id, mat4Id⟩ mat4Id (by decide)
      (by decide) ⟨⟨0,0,0⟩, ⟨1,0,0⟩, 1⟩ (1/1000) ⊤⟩
